import Mathlib

/-!
Verification of `stock_scraper.py` against its specification.

This file gives a shallow embedding of the pure data-manipulating core of
the scraper:

* `pyInt` models Python's `int(str)` conversion (used via `try_parse_int`);
* `Node` models the parsed HTML element tree that BeautifulSoup produces,
  and `parse_stock_rows` models the extraction function of the same name;
* `StockRow` models the `{'Code': ..., 'QTY': ...}` dictionaries / DataFrame
  rows; `derive_manual_skus` models the deriver of the same name;
* `Csv` models a DataFrame produced by `pandas.read_csv`, and
  `get_urls_from_local_csv` models the URL loader of the same name;
* `write_to_google_sheets` is modelled as the trace of spreadsheet API calls
  it issues; `to_csv` models `DataFrame.to_csv(index=False)`.

Strings are ASCII in all inputs of interest; whitespace means the ASCII
whitespace characters recognised by both Python's `str.strip` and Lean.
-/

namespace StockScraper

/-! ## Python string primitives

All string manipulation is defined structurally on `String.data` so that
every definition evaluates by `rfl`/`decide` on concrete inputs. -/

/-- ASCII whitespace, as stripped by Python's `str.strip()` (ASCII fragment). -/
def wsChar (c : Char) : Bool := c = ' ' || c = '\t' || c = '\n' || c = '\r' || c = '\x0b' || c = '\x0c'

/-- Model of Python `s.strip()` (ASCII fragment): drop leading and trailing
whitespace. -/
def pyStrip (s : String) : String :=
  ⟨((s.data.dropWhile wsChar).reverse.dropWhile wsChar).reverse⟩

/-- Model of Python `s.lower()` (ASCII fragment). -/
def pyLower (s : String) : String := ⟨s.data.map Char.toLower⟩

/-- Digit-sequence fragment of Python's integer literal grammar: after a first
digit, digits may be separated by single underscores.  Accumulates the value. -/
def pyDigitsAux : List Char → Nat → Option Nat
  | [], acc => some acc
  | '_' :: c :: rest, acc =>
    if c.isDigit then pyDigitsAux rest (acc * 10 + (c.toNat - 48)) else none
  | c :: rest, acc =>
    if c.isDigit then pyDigitsAux rest (acc * 10 + (c.toNat - 48)) else none

/-- Parses a non-empty digit sequence (Python `digitpart`): must start with a
digit; single underscores are allowed between digits. -/
def pyDigits : List Char → Option Nat
  | [] => none
  | c :: rest => if c.isDigit then pyDigitsAux rest (c.toNat - 48) else none

/-- Model of Python `int(s)` for a string argument (ASCII fragment):
surrounding whitespace is tolerated, then an optional sign and a digit
sequence.  `try_parse_int` in the source wraps this in a `try/except` that
turns failure into `None`, which is the `none` case here. -/
def pyInt (s : String) : Option Int :=
  match (pyStrip s).data with
  | '+' :: rest => (pyDigits rest).map Int.ofNat
  | '-' :: rest => (pyDigits rest).map (fun n => -(Int.ofNat n : Int))
  | rest => (pyDigits rest).map Int.ofNat

/-! ## Stock rows and the SKU deriver

`parse_stock_rows` produces dictionaries `{'Code': ..., 'QTY': ...}`; the
DataFrame built from them stores both columns as strings (derived rows hold
Python ints, rendered back to decimal strings on every output path, so the
model stores the rendered string directly). -/

/-- One extracted stock row: the `Code` and `QTY` fields of the dictionaries
built by `parse_stock_rows` / the rows of the result DataFrame. -/
structure StockRow where
  code : String
  qty : String
deriving DecidableEq, Repr

/-- Model of `df.loc[df['Code'] == c, 'QTY']` followed by the `.empty` test and
`.values[0]`: the `QTY` of the first row whose `Code` equals `c`, if any. -/
def qtyLookup (t : List StockRow) (c : String) : Option String :=
  ((t.filter (fun r => r.code = c)).map (fun r => r.qty)).head?

/-- First block of `derive_manual_skus`: if a row with code `ACGEL5L` exists
and its quantity parses as an integer, append one `ACGEL5L+` row with the
same quantity. -/
def applyDerive5L (t : List StockRow) : List StockRow :=
  match qtyLookup t "ACGEL5L" with
  | none => t
  | some v =>
    match pyInt v with
    | none => t
    | some q => t ++ [⟨"ACGEL5L+", toString q⟩]

/-- Second block of `derive_manual_skus`: the `ACGEL250` quantity is looked up
in the original table `orig` (the source computes `qty_250` before either
`pd.concat`), and the three derived rows are appended to the accumulated
table `acc`.  Python `//` on ints is floor division, i.e. `Int.fdiv`. -/
def applyDerive250 (orig acc : List StockRow) : List StockRow :=
  match qtyLookup orig "ACGEL250" with
  | none => acc
  | some v =>
    match pyInt v with
    | none => acc
    | some q => acc ++ [⟨"ACGEL250(2)", toString (Int.fdiv q 2)⟩,
                        ⟨"ACGEL250(4)", toString (Int.fdiv q 4)⟩,
                        ⟨"ACGEL250(12)", toString (Int.fdiv q 12)⟩]

/-- Model of `derive_manual_skus`: both lookups read the input table; the
`ACGEL5L+` row (if any) is appended first, the three `ACGEL250(n)` rows (if
any) after it. -/
def derive_manual_skus (t : List StockRow) : List StockRow :=
  applyDerive250 t (applyDerive5L t)

/-- Convenience for stating length facts: the parsed quantity of the first
row carrying code `c`, when both the lookup and the parse succeed. -/
def lookupParsed (t : List StockRow) (c : String) : Option Int :=
  match qtyLookup t c with
  | none => none
  | some v => pyInt v

/-! ## HTML element trees

`Node` models the element tree BeautifulSoup builds from the fetched HTML.
Sibling sequences get their own mutual inductive `NodeList` so that every
traversal below is structural recursion and evaluates by `rfl` on concrete
documents. -/

mutual
/-- An HTML node: an element with tag name, attribute list and children, or a
text node. -/
inductive Node where
  | elem (tag : String) (attrs : List (String × String)) (children : NodeList)
  | text (s : String)
/-- A sequence of sibling nodes. -/
inductive NodeList where
  | nil
  | cons (head : Node) (tail : NodeList)
end

/-- View a sibling sequence as an ordinary list. -/
def NodeList.toList : NodeList → List Node
  | .nil => []
  | .cons n l => n :: l.toList

/-- Splitter used for the `class` attribute: HTML multi-valued attributes are
split on whitespace (this is how BeautifulSoup stores `class`). -/
def splitWsAux : List Char → List Char → List String
  | [], acc => [⟨acc.reverse⟩]
  | c :: rest, acc =>
    if wsChar c then ⟨acc.reverse⟩ :: splitWsAux rest [] else splitWsAux rest (c :: acc)

/-- Whitespace-split a string, discarding empty fragments. -/
def splitWs (s : String) : List String := (splitWsAux s.data []).filter (fun t => t ≠ "")

/-- Value of attribute `key` on an element, or `dflt` if absent (models
`tag.get(key, dflt)`; also used for plain attribute access). -/
def getAttr (n : Node) (key dflt : String) : String :=
  match n with
  | .elem _ attrs _ =>
    match attrs.find? (fun p => p.1 = key) with
    | some p => p.2
    | none => dflt
  | .text _ => dflt

/-- Class token list of an element: its `class` attribute split on
whitespace. -/
def classList (n : Node) : List String :=
  match n with
  | .elem _ attrs _ =>
    match attrs.find? (fun p => p.1 = "class") with
    | some p => splitWs p.2
    | none => []
  | .text _ => []

/-- Space-join of class tokens (`' '.join(classes)`), used by BeautifulSoup's
whole-string fallback when matching a multi-token class filter. -/
def joinClasses : List String → String
  | [] => ""
  | [c] => c
  | c :: rest => c ++ " " ++ joinClasses rest

/-- Model of BeautifulSoup's `find_all('div', \x7b'class': cls\x7d)` element
test: the tag must be `div`, and the filter string must either equal one of
the element's class tokens, or (when it contains a space) equal the
space-join of all its class tokens. -/
def matchesDivClass (cls : String) (n : Node) : Bool :=
  match n with
  | .elem t _ _ =>
    t = "div" && ((classList n).contains cls ||
      (cls.data.contains ' ' && joinClasses (classList n) = cls))
  | .text _ => false

mutual
/-- All descendants of a node, in document (preorder) order, excluding the
node itself — the search space of BeautifulSoup's `find_all`/`find`. -/
def descendantsOf : Node → List Node
  | .text _ => []
  | .elem _ _ cs => descendantsList cs
/-- All members of a sibling sequence together with their descendants, in
document order. -/
def descendantsList : NodeList → List Node
  | .nil => []
  | .cons n l => n :: (descendantsOf n ++ descendantsList l)
end

/-- Model of `tag.find_all(...)` with an element predicate: all matching
descendants in document order. -/
def findAllD (p : Node → Bool) (n : Node) : List Node :=
  (descendantsOf n).filter p

/-- Tag-name test used by `find('input')`. -/
def isTag (t : String) (n : Node) : Bool :=
  match n with
  | .elem t' _ _ => t' = t
  | .text _ => false

/-- Model of `tag.find(name)`: the first descendant element with that tag
name, if any. -/
def findTag (t : String) (n : Node) : Option Node :=
  (descendantsOf n).find? (isTag t)

/-- Class signature of the container elements holding the stock rows (the
exact string literal from `parse_stock_rows`). -/
def containerClassSig : String :=
  "product_form_list container is-justtify-space-between has-no-side-gutter content-for-list"

/-- Class signature of the header blocks stripped from each container. -/
def headerClassSig : String := "column header one-fifth medium-down--one-half"

mutual
/-- Model of the header-stripping loop: `header.decompose()` removes each
descendant matching the header signature, together with its subtree.  The
node this is applied to (the container itself) is never removed. -/
def stripHeadersNode : Node → Node
  | .text s => .text s
  | .elem t a cs => .elem t a (stripHeadersList cs)
/-- Header stripping over a sibling sequence. -/
def stripHeadersList : NodeList → NodeList
  | .nil => .nil
  | .cons n l =>
    if matchesDivClass headerClassSig n then stripHeadersList l
    else .cons (stripHeadersNode n) (stripHeadersList l)
end

mutual
/-- The text-node contents of a node, in document order (BeautifulSoup's
`self.strings`). -/
def stringsOf : Node → List String
  | .text s => [s]
  | .elem _ _ cs => stringsList cs
/-- Text-node contents of a sibling sequence. -/
def stringsList : NodeList → List String
  | .nil => []
  | .cons n l => stringsOf n ++ stringsList l
end

/-- Model of `tag.get_text(strip=True)`: each descendant string is stripped,
empty results are dropped, and the rest are concatenated in document order
with no separator. -/
def getTextStrip (n : Node) : String :=
  String.join (((stringsOf n).map pyStrip).filter (fun s => s ≠ ""))

/-- Model of Python `s.split(' ', 1)`: at most one split, at the first
space character (exactly `' '`, not arbitrary whitespace). -/
def pySplitSpace1Aux : List Char → List Char → List String
  | [], acc => [⟨acc.reverse⟩]
  | c :: rest, acc =>
    if c = ' ' then [⟨acc.reverse⟩, ⟨rest⟩] else pySplitSpace1Aux rest (c :: acc)

/-- Python `s.split(' ', 1)` on a string. -/
def pySplitSpace1 (s : String) : List String := pySplitSpace1Aux s.data []

/-- Quantity extracted from a group of column elements, read from slot 3 if
present: the `max` attribute of its first `input` descendant, else
`'Unknown'`.  (The Python guard `if qty_col and qty_col.find('input')`
treats a childless `qty_col` as falsy, but such an element has no `input`
descendant either, so the result agrees.) -/
def chunkQty (cols : List Node) : String :=
  match cols[3]? with
  | some qc =>
    match findTag "input" qc with
    | some inp => getAttr inp "max" "Unknown"
    | none => "Unknown"
  | none => "Unknown"

/-- Code extracted from a group of column elements:
`columns[i].get_text(strip=True)`, then `code_text.split(' ', 1)[0]` when
that text is non-empty. -/
def chunkCode (cols : List Node) : String :=
  let codeText :=
    match cols[0]? with
    | some c => getTextStrip c
    | none => ""
  if codeText = "" then "" else (pySplitSpace1 codeText).headD ""

/-- One iteration of the extraction loop body: a row is emitted only if the
extracted code is non-empty. -/
def groupRow (cols : List Node) : List StockRow :=
  if chunkCode cols = "" then [] else [⟨chunkCode cols, chunkQty cols⟩]

/-- Model of `for i in range(0, len(columns), 5)`: process the column list in
chunks of five; the final chunk may be shorter.  Each chunk only reads its
slots 0 and 3, so passing the whole suffix to `groupRow` matches the
index-based access of the source. -/
def processChunks : List Node → List StockRow
  | [] => []
  | [a] => groupRow [a]
  | [a, b] => groupRow [a, b]
  | [a, b, c] => groupRow [a, b, c]
  | [a, b, c, d] => groupRow [a, b, c, d]
  | a :: b :: c :: d :: e :: rest =>
    groupRow (a :: b :: c :: d :: e :: rest) ++ processChunks rest

/-- Model of `parse_stock_rows`: select all container elements, strip their
header blocks, collect their `column` descendants in document order, and
walk them in chunks of five. -/
def parse_stock_rows (doc : Node) : List StockRow :=
  ((findAllD (matchesDivClass containerClassSig) doc).map (fun row =>
      processChunks (findAllD (matchesDivClass "column") (stripHeadersNode row)))).flatten

/-! ## URL loading from a local CSV file

`Csv` models the DataFrame `pandas.read_csv` produces: a header row naming
the columns and data rows of optional cells (`none` is a missing/NaN cell —
`read_csv` reads empty fields as NaN, and pads short rows with NaN).
`read_csv` de-duplicates column names (a second `url` column is renamed
`url.1`), so the headers of a `Csv` arising from it are pairwise distinct;
theorems that depend on name-based column selection carry this as a `Nodup`
hypothesis.  The absent-file case of `get_urls_from_local_csv` is the
`none` argument. -/

/-- A parsed CSV file as a DataFrame: column names plus rows of optional
cells. -/
structure Csv where
  headers : List String
  rows : List (List (Option String))

/-- The column-name test of `get_urls_from_local_csv`:
`c.strip().lower() == "url"`. -/
def isUrlHeader (c : String) : Bool := pyLower (pyStrip c) = "url"

/-- Model of `get_urls_from_local_csv`: `[]` when the file is absent;
otherwise collect the column names matching `isUrlHeader`, and if any exist,
return the present (non-NaN) cells of the column selected by the first such
name (`df[col[0]].dropna().tolist()`), in row order. -/
def get_urls_from_local_csv (file : Option Csv) : List String :=
  match file with
  | none => []
  | some df =>
    let col := df.headers.filter isUrlHeader
    match col.head? with
    | none => []
    | some c0 =>
      match df.headers.findIdx? (fun h => h = c0) with
      | none => []
      | some j => df.rows.filterMap (fun row => (row[j]?).getD none)

/-! ## Spreadsheet output

`write_to_google_sheets` only issues spreadsheet API calls; it is modelled
as the trace of those calls in order.  The `format` payload
`textFormat/bold=true` is abbreviated to the string `"bold"`. -/

/-- One spreadsheet API call issued by `write_to_google_sheets`. -/
inductive SheetOp where
  | batchClear (ranges : List String)
  | update (range : String) (values : List (List String))
  | format (range : String) (payload : String)
deriving DecidableEq, Repr

/-- Model of `write_to_google_sheets`: clear columns B and C from row 2 down,
then — only when there is at least one data row — write the `Code` and `QTY`
columns (header in row 1, data from row 2) and bold the header row.  `QTY`
values are already stored as their decimal rendering, so `astype(str)` is
the identity here. -/
def write_to_google_sheets (df : List StockRow) : List SheetOp :=
  let clear := [SheetOp.batchClear ["B2:B", "C2:C"]]
  let values := df.map (fun r => (r.code, r.qty))
  if values.isEmpty then clear
  else
    let code_col := ["Code"] :: values.map (fun v => [v.1])
    let qty_col := ["QTY"] :: values.map (fun v => [v.2])
    clear ++ [SheetOp.update ("B1:B" ++ toString code_col.length) code_col,
              SheetOp.update ("C1:C" ++ toString qty_col.length) qty_col,
              SheetOp.format "B1:C1" "bold"]

/-! ## File output -/

/-- Escape double quotes by doubling them, as CSV quoting does. -/
def escapeQuotes : List Char → List Char
  | [] => []
  | '"' :: rest => '"' :: '"' :: escapeQuotes rest
  | c :: rest => c :: escapeQuotes rest

/-- One CSV field under pandas' default minimal quoting: quoted (with inner
quotes doubled) exactly when it contains a comma, a quote or a line break. -/
def csvField (s : String) : String :=
  if s.data.any (fun c => c = ',' || c = '"' || c = '\n' || c = '\r')
  then "\"" ++ ⟨escapeQuotes s.data⟩ ++ "\""
  else s

/-- Model of `df.to_csv(out_path, index=False)` for the two-column result
DataFrame: the text written to the output file — a `Code,QTY` header line
followed by one line per row. -/
def to_csv (t : List StockRow) : String :=
  "Code,QTY\n" ++ String.join (t.map (fun r => csvField r.code ++ "," ++ csvField r.qty ++ "\n"))

/-- File-mode output step of `main`: build the DataFrame from the extracted
rows and derive the manual SKUs, then serialise it.  (`dropna(subset=['Code'])`
is the identity here: every extracted dictionary carries a `Code` string, so
no cell of that column is NaN.) -/
def mainFileOutput (extracted : List StockRow) : String :=
  to_csv (derive_manual_skus extracted)

/-! ## Spec-side definitions

These two definitions follow the words of the specification (not the
source); they are compared against the source-derived definitions in the
claims about code truncation. -/

/-- Modelled from the spec claim wording: "truncated at the first whitespace
character (only the first whitespace-delimited token is kept)". -/
def specTruncateAtWs (s : String) : String :=
  ⟨s.data.takeWhile (fun c => !(wsChar c))⟩

/-- Modelled from the amended wording: truncated at the first space character
`' '` (U+0020) — only the first space-delimited token is kept. -/
def specTruncateAtSpace (s : String) : String :=
  ⟨s.data.takeWhile (fun c => c ≠ ' ')⟩

/-! ## Helper lemmas -/

/-- A lookup on a table none of whose rows carry the code `c` finds
nothing. -/
theorem qtyLookup_eq_none {t : List StockRow} {c : String}
    (h : ∀ r ∈ t, r.code ≠ c) : qtyLookup t c = none := by
  unfold qtyLookup
  rw [List.filter_eq_nil_iff.mpr (by simpa using h)]
  rfl

/-- The first derivation block appends a (possibly empty) suffix. -/
theorem applyDerive5L_eq_append (t : List StockRow) :
    ∃ s, applyDerive5L t = t ++ s := by
  rcases h : qtyLookup t "ACGEL5L" with _ | v
  · exact ⟨[], by simp [applyDerive5L, h]⟩
  · rcases h2 : pyInt v with _ | q
    · exact ⟨[], by simp [applyDerive5L, h, h2]⟩
    · exact ⟨[⟨"ACGEL5L+", toString q⟩], by simp [applyDerive5L, h, h2]⟩

/-- The second derivation block appends a (possibly empty) suffix to the
accumulated table. -/
theorem applyDerive250_eq_append (orig acc : List StockRow) :
    ∃ s, applyDerive250 orig acc = acc ++ s := by
  rcases h : qtyLookup orig "ACGEL250" with _ | v
  · exact ⟨[], by simp [applyDerive250, h]⟩
  · rcases h2 : pyInt v with _ | q
    · exact ⟨[], by simp [applyDerive250, h, h2]⟩
    · exact ⟨[⟨"ACGEL250(2)", toString (Int.fdiv q 2)⟩,
              ⟨"ACGEL250(4)", toString (Int.fdiv q 4)⟩,
              ⟨"ACGEL250(12)", toString (Int.fdiv q 12)⟩],
        by simp [applyDerive250, h, h2]⟩

/-- Length added by the first derivation block: one row exactly when the
`ACGEL5L` lookup and parse both succeed. -/
theorem applyDerive5L_length (t : List StockRow) :
    (applyDerive5L t).length =
      t.length + (if (lookupParsed t "ACGEL5L").isSome then 1 else 0) := by
  rcases h : qtyLookup t "ACGEL5L" with _ | v
  · simp [applyDerive5L, lookupParsed, h]
  · rcases h2 : pyInt v with _ | q
    · simp [applyDerive5L, lookupParsed, h, h2]
    · simp [applyDerive5L, lookupParsed, h, h2]

/-- Length added by the second derivation block: three rows exactly when the
`ACGEL250` lookup and parse both succeed. -/
theorem applyDerive250_length (orig acc : List StockRow) :
    (applyDerive250 orig acc).length =
      acc.length + (if (lookupParsed orig "ACGEL250").isSome then 3 else 0) := by
  rcases h : qtyLookup orig "ACGEL250" with _ | v
  · simp [applyDerive250, lookupParsed, h]
  · rcases h2 : pyInt v with _ | q
    · simp [applyDerive250, lookupParsed, h, h2]
    · simp [applyDerive250, lookupParsed, h, h2]

/-- Evaluating Python's `s.split(' ', 1)[0]` (with `''` for a missing head)
keeps exactly the characters before the first space. -/
theorem pySplitSpace1Aux_headD : ∀ (l acc : List Char),
    (pySplitSpace1Aux l acc).headD "" = ⟨acc.reverse ++ l.takeWhile (fun c => c ≠ ' ')⟩
  | [], acc => by simp [pySplitSpace1Aux]
  | c :: rest, acc => by
    simp only [pySplitSpace1Aux]
    by_cases hc : c = ' '
    · subst hc
      simp [List.takeWhile_cons]
    · rw [if_neg hc, pySplitSpace1Aux_headD rest (c :: acc)]
      simp [List.takeWhile_cons, hc, List.append_assoc]

/-- The code extracted from a group is the get-text of slot 0 truncated at
the first space character. -/
theorem chunkCode_eq_truncate (cols : List Node) (c0 : Node) (h : cols[0]? = some c0) :
    chunkCode cols = specTruncateAtSpace (getTextStrip c0) := by
  simp only [chunkCode, h]
  by_cases he : getTextStrip c0 = ""
  · rw [if_pos he, he]
    rfl
  · rw [if_neg he, pySplitSpace1, pySplitSpace1Aux_headD]
    simp [specTruncateAtSpace]

/-! ## Claim C1 -/

/-- Claim C1, as stated, is false: an input containing only an `ACGEL250` row
with parseable quantity grows by three rows, and three is not among the
claimed increments 0, 1, 4. -/
theorem claim1_counterexample :
    ¬ ((derive_manual_skus [⟨"ACGEL250", "100"⟩]).length
          = ([⟨"ACGEL250", "100"⟩] : List StockRow).length + 0 ∨
       (derive_manual_skus [⟨"ACGEL250", "100"⟩]).length
          = ([⟨"ACGEL250", "100"⟩] : List StockRow).length + 1 ∨
       (derive_manual_skus [⟨"ACGEL250", "100"⟩]).length
          = ([⟨"ACGEL250", "100"⟩] : List StockRow).length + 4) := by
  decide

/-- Claim C1 (amended): the output length of `derive_manual_skus` is the
input length plus 0, 1, 3 or 4 — one row is added exactly when the first
`ACGEL5L` row's quantity parses, and three rows exactly when the first
`ACGEL250` row's quantity parses. -/
theorem claim1_amended_thm (t : List StockRow) :
    (derive_manual_skus t).length =
      t.length + (if (lookupParsed t "ACGEL5L").isSome then 1 else 0)
        + (if (lookupParsed t "ACGEL250").isSome then 3 else 0) := by
  rw [derive_manual_skus, applyDerive250_length, applyDerive5L_length]

/-! ## Claim C4 -/

/-- Claim C4: when the first `ACGEL250` row's quantity parses as the integer
`q`, `derive_manual_skus` ends by appending exactly the three rows
`ACGEL250(2)`, `ACGEL250(4)`, `ACGEL250(12)` with quantities `q` floor-divided
by 2, 4 and 12. -/
theorem claim4_thm (t : List StockRow) (v : String) (q : Int)
    (h1 : qtyLookup t "ACGEL250" = some v) (h2 : pyInt v = some q) :
    derive_manual_skus t = applyDerive5L t ++
      [⟨"ACGEL250(2)", toString (Int.fdiv q 2)⟩,
       ⟨"ACGEL250(4)", toString (Int.fdiv q 4)⟩,
       ⟨"ACGEL250(12)", toString (Int.fdiv q 12)⟩] := by
  simp [derive_manual_skus, applyDerive250, h1, h2]

/-- Claim C4 witness: quantity 100 yields derived quantities 50, 25, 8, and
quantity 7 yields 3, 1, 0 (floor division). -/
theorem claim4_witness :
    derive_manual_skus [⟨"ACGEL250", "100"⟩] =
      [⟨"ACGEL250", "100"⟩, ⟨"ACGEL250(2)", "50"⟩,
       ⟨"ACGEL250(4)", "25"⟩, ⟨"ACGEL250(12)", "8"⟩] ∧
    derive_manual_skus [⟨"ACGEL250", "7"⟩] =
      [⟨"ACGEL250", "7"⟩, ⟨"ACGEL250(2)", "3"⟩,
       ⟨"ACGEL250(4)", "1"⟩, ⟨"ACGEL250(12)", "0"⟩] := by
  constructor
  · rw [claim4_thm [⟨"ACGEL250", "100"⟩] "100" 100 rfl rfl]; rfl
  · rw [claim4_thm [⟨"ACGEL250", "7"⟩] "7" 7 rfl rfl]; rfl

/-! ## Claim C5 -/

/-- Claim C5: `derive_manual_skus` only appends — the input is a prefix of
the output — and when no row carries either trigger code the output equals
the input. -/
theorem claim5_thm (t : List StockRow) :
    (∃ s, derive_manual_skus t = t ++ s) ∧
    ((∀ r ∈ t, r.code ≠ "ACGEL5L" ∧ r.code ≠ "ACGEL250") →
      derive_manual_skus t = t) := by
  constructor
  · obtain ⟨s1, h1⟩ := applyDerive5L_eq_append t
    obtain ⟨s2, h2⟩ := applyDerive250_eq_append t (applyDerive5L t)
    exact ⟨s1 ++ s2, by rw [derive_manual_skus, h2, h1, List.append_assoc]⟩
  · intro h
    have h5 : qtyLookup t "ACGEL5L" = none :=
      qtyLookup_eq_none (fun r hr => (h r hr).1)
    have h2 : qtyLookup t "ACGEL250" = none :=
      qtyLookup_eq_none (fun r hr => (h r hr).2)
    rw [derive_manual_skus, applyDerive5L, h5, applyDerive250, h2]

/-- Claim C5 witness: a table with a single unrelated row passes through
unchanged (and in particular is a prefix of the output). -/
theorem claim5_witness :
    (∃ s, derive_manual_skus [⟨"A", "1"⟩] = [⟨"A", "1"⟩] ++ s) ∧
    derive_manual_skus [⟨"A", "1"⟩] = [⟨"A", "1"⟩] :=
  ⟨(claim5_thm _).1, (claim5_thm _).2 (by decide)⟩

/-! ## Claim C8 -/

/-- Claim C8: with duplicate trigger rows, only the first matching row's
quantity is consulted — if it does not parse, the corresponding derivation
block appends nothing, even when a later duplicate would parse. -/
theorem claim8_thm (t : List StockRow) :
    (∀ v, qtyLookup t "ACGEL5L" = some v → pyInt v = none →
        derive_manual_skus t = applyDerive250 t t) ∧
    (∀ v, qtyLookup t "ACGEL250" = some v → pyInt v = none →
        derive_manual_skus t = applyDerive5L t) := by
  constructor
  · intro v hv hp
    simp [derive_manual_skus, applyDerive5L, hv, hp]
  · intro v hv hp
    simp [derive_manual_skus, applyDerive250, hv, hp]

/-- Claim C8 witness: a first `ACGEL5L` row with unparseable quantity blocks
the derivation even though the duplicate after it has quantity 10, and
likewise for `ACGEL250`. -/
theorem claim8_witness :
    derive_manual_skus [⟨"ACGEL5L", "Unknown"⟩, ⟨"ACGEL5L", "10"⟩] =
      [⟨"ACGEL5L", "Unknown"⟩, ⟨"ACGEL5L", "10"⟩] ∧
    derive_manual_skus [⟨"ACGEL250", "n/a"⟩, ⟨"ACGEL250", "8"⟩] =
      [⟨"ACGEL250", "n/a"⟩, ⟨"ACGEL250", "8"⟩] := by
  constructor
  · rw [(claim8_thm [⟨"ACGEL5L", "Unknown"⟩, ⟨"ACGEL5L", "10"⟩]).1 "Unknown" rfl rfl]; rfl
  · rw [(claim8_thm [⟨"ACGEL250", "n/a"⟩, ⟨"ACGEL250", "8"⟩]).2 "n/a" rfl rfl]; rfl

/-! ## Claims C2 and C3

Concrete documents used as inputs. -/

/-- A plain `column`-classed div with the given children. -/
def columnDiv (children : NodeList) : Node := .elem "div" [("class", "column")] children

/-- A container holding exactly three column elements, the first of which has
non-empty text. -/
def claim2container : Node :=
  .elem "div" [("class", containerClassSig)]
    (.cons (columnDiv (.cons (.text "ABC") .nil))
    (.cons (columnDiv .nil)
    (.cons (columnDiv .nil) .nil)))

/-- A document whose only container is `claim2container`. -/
def claim2doc : Node := .elem "html" [] (.cons claim2container .nil)

/-- The column elements of `claim2container`, as collected by the
extractor. -/
def claim2cols : List Node :=
  [columnDiv (.cons (.text "ABC") .nil), columnDiv .nil, columnDiv .nil]

/-- Claim C2, as stated, is false: a container with exactly 3 column
elements whose first column carries the code `ABC` contributes one `StockRow`
(with quantity `Unknown`), not zero. -/
theorem claim2_counterexample :
    findAllD (matchesDivClass containerClassSig) claim2doc = [claim2container] ∧
    (findAllD (matchesDivClass "column") (stripHeadersNode claim2container)).length = 3 ∧
    parse_stock_rows claim2doc = [⟨"ABC", "Unknown"⟩] ∧
    parse_stock_rows claim2doc ≠ [] :=
  ⟨rfl, rfl, rfl, by decide⟩

/-- Claim C2 (amended): a container with fewer than 5 column elements yields
zero rows when the code extracted from its first column slot is empty (in
particular when it has no columns at all), and exactly one row otherwise;
when it has fewer than 4 columns the quantity slot is absent and the
quantity reads `Unknown`. -/
theorem claim2_amended_thm (cols : List Node) (h : cols.length < 5) :
    (processChunks cols).length = (if chunkCode cols = "" then 0 else 1) ∧
    (cols.length < 4 → chunkQty cols = "Unknown") := by
  rcases cols with _ | ⟨a, _ | ⟨b, _ | ⟨c, _ | ⟨d, _ | ⟨e, rest⟩⟩⟩⟩⟩
  · exact ⟨rfl, fun _ => rfl⟩
  · exact ⟨by by_cases hc : chunkCode [a] = "" <;> simp [processChunks, groupRow, hc],
      fun _ => rfl⟩
  · exact ⟨by by_cases hc : chunkCode [a, b] = "" <;> simp [processChunks, groupRow, hc],
      fun _ => rfl⟩
  · exact ⟨by by_cases hc : chunkCode [a, b, c] = "" <;> simp [processChunks, groupRow, hc],
      fun _ => rfl⟩
  · refine ⟨?_, fun h4 => by simp at h4⟩
    by_cases hc : chunkCode [a, b, c, d] = "" <;> simp [processChunks, groupRow, hc]
  · exfalso
    simp [List.length_cons] at h
    omega

/-- Claim C2 witness: on the three-column list of `claim2container` the
amended statement evaluates to one emitted row with quantity `Unknown`. -/
theorem claim2_witness :
    (processChunks claim2cols).length = 1 ∧ chunkQty claim2cols = "Unknown" := by
  have h := claim2_amended_thm claim2cols (by decide)
  exact ⟨by rw [h.1]; rfl, h.2 (by decide)⟩

/-- The first column of the document for claim C3: its text holds a tab, so
truncating at the first whitespace differs from truncating at the first
space. -/
def claim3slot0 : Node := columnDiv (.cons (.text "AB\tCD") .nil)

/-- A document with one container of five columns whose first column is
`claim3slot0`. -/
def claim3doc : Node :=
  .elem "html" []
    (.cons (.elem "div" [("class", containerClassSig)]
      (.cons claim3slot0
      (.cons (columnDiv .nil)
      (.cons (columnDiv .nil)
      (.cons (columnDiv .nil)
      (.cons (columnDiv .nil) .nil)))))) .nil)

/-- Claim C3, as stated, is false: the code emitted for `claim3slot0` is the
full text `AB\tCD` — the source truncates only at a space character — while
truncation at the first whitespace character would give `AB`. -/
theorem claim3_counterexample :
    parse_stock_rows claim3doc = [⟨"AB\tCD", "Unknown"⟩] ∧
    specTruncateAtWs (getTextStrip claim3slot0) = "AB" ∧
    ("AB\tCD" : String) ≠ "AB" :=
  ⟨rfl, rfl, by decide⟩

/-- Claim C3 (amended): the emitted code is the stripped concatenated text of
slot 0 of the group truncated at the first space character (U+0020), and a
`StockRow` is emitted for the group exactly when that code is non-empty. -/
theorem claim3_amended_thm (cols : List Node) (c0 : Node) (h : cols[0]? = some c0) :
    chunkCode cols = specTruncateAtSpace (getTextStrip c0) ∧
    groupRow cols = (if specTruncateAtSpace (getTextStrip c0) = "" then []
                     else [⟨specTruncateAtSpace (getTextStrip c0), chunkQty cols⟩]) := by
  have hc := chunkCode_eq_truncate cols c0 h
  exact ⟨hc, by rw [groupRow, hc]⟩

/-- The five-column group from the specification's worked example: slot 0
text `ABC123 Widget`, slot 3 an input with `max="15"`. -/
def claim3wcols : List Node :=
  [columnDiv (.cons (.text "ABC123 Widget") .nil),
   columnDiv .nil,
   columnDiv .nil,
   columnDiv (.cons (.elem "input" [("max", "15"), ("type", "number")] .nil) .nil),
   columnDiv .nil]

/-- Claim C3 witness: on the worked example the truncated code is `ABC123`
and the emitted row is `(ABC123, 15)`. -/
theorem claim3_witness :
    chunkCode claim3wcols = "ABC123" ∧ groupRow claim3wcols = [⟨"ABC123", "15"⟩] := by
  have h := claim3_amended_thm claim3wcols (columnDiv (.cons (.text "ABC123 Widget") .nil)) rfl
  exact ⟨by rw [h.1]; rfl, by rw [h.2]; rfl⟩

/-! ## Claims C7 and C9 -/

/-- Selecting by the name of the first column satisfying `p` finds the first
column satisfying `p`: any earlier column with the same name would itself
satisfy `p`. -/
theorem findIdx?_eq_of_filter_head? {α : Type _} [DecidableEq α] (p : α → Bool) :
    ∀ (l : List α) (c : α), (l.filter p).head? = some c →
      ∀ i, l.findIdx? (fun x => x = c) i = l.findIdx? p i
  | [], _, h => by simp at h
  | a :: l, c, h => by
    intro i
    by_cases hpa : p a
    · rw [List.filter_cons_of_pos hpa] at h
      have hac : a = c := by simpa using h
      subst hac
      rw [List.findIdx?_cons, List.findIdx?_cons, if_pos hpa, if_pos (by simp)]
    · rw [List.filter_cons_of_neg hpa] at h
      have hcmem : c ∈ l.filter p := by
        rcases List.head?_eq_some_iff.mp h with ⟨ys, hys⟩
        rw [hys]
        exact List.mem_cons_self _ _
      have hpc : p c := (List.mem_filter.mp hcmem).2
      have hac : ¬(a = c) := fun he => hpa (he ▸ hpc)
      rw [List.findIdx?_cons, List.findIdx?_cons, if_neg hpa, if_neg (by simpa using hac)]
      exact findIdx?_eq_of_filter_head? p l c h (i + 1)

/-- When some column name matches `isUrlHeader`, the loader returns the
present cells of the first matching column. -/
theorem get_urls_pos (df : Csv) (j : Nat)
    (hj : df.headers.findIdx? isUrlHeader = some j) :
    get_urls_from_local_csv (some df) =
      df.rows.filterMap (fun row => (row[j]?).getD none) := by
  rcases hfe : (df.headers.filter isUrlHeader).head? with _ | c0
  · exfalso
    rw [List.head?_eq_none_iff] at hfe
    have hnone : df.headers.findIdx? isUrlHeader = none := by
      rw [List.findIdx?_eq_none_iff]
      intro x hx
      simpa using List.filter_eq_nil_iff.mp hfe x hx
    rw [hnone] at hj
    exact Option.noConfusion hj
  · have hidx := findIdx?_eq_of_filter_head? isUrlHeader df.headers c0 hfe 0
    simp only [get_urls_from_local_csv, hfe, hidx, hj]

/-! ## Claim C7 -/

/-- Claim C7: `get_urls_from_local_csv` returns the empty list when the file
is absent or no column name strips-and-lowercases to `url`; otherwise it
returns the present (non-NaN) cells of the first matching column in row
order.  (The `Nodup` hypothesis records that `read_csv` de-duplicates column
names, which is what makes name-based selection well defined.) -/
theorem claim7_thm :
    get_urls_from_local_csv none = [] ∧
    (∀ df : Csv, df.headers.filter isUrlHeader = [] →
      get_urls_from_local_csv (some df) = []) ∧
    (∀ df : Csv, ∀ j : Nat, df.headers.Nodup →
      df.headers.findIdx? isUrlHeader = some j →
      get_urls_from_local_csv (some df) =
        df.rows.filterMap (fun row => (row[j]?).getD none)) := by
  refine ⟨rfl, ?_, ?_⟩
  · intro df hf
    simp [get_urls_from_local_csv, hf]
  · intro df j _ hj
    exact get_urls_pos df j hj

/-- Claim C7 witness: an absent file and a `link`-only file both give `[]`;
a file with a `' URL '` column gives its present values in row order. -/
theorem claim7_witness :
    get_urls_from_local_csv none = [] ∧
    get_urls_from_local_csv (some ⟨["link"], [[some "http://x"]]⟩) = [] ∧
    get_urls_from_local_csv (some ⟨["name", " URL "],
      [[some "n1", some "http://a"], [some "n2", none], [none, some "http://b"]]⟩) =
      ["http://a", "http://b"] := by
  refine ⟨claim7_thm.1, claim7_thm.2.1 ⟨["link"], [[some "http://x"]]⟩ (by decide), ?_⟩
  rw [claim7_thm.2.2 ⟨["name", " URL "],
    [[some "n1", some "http://a"], [some "n2", none], [none, some "http://b"]]⟩ 1
    (by decide) (by decide)]
  rfl

/-! ## Claim C9 -/

/-- Claim C9: when more than one column name matches `isUrlHeader`, the
loader returns the values of the leftmost matching column (the one at the
first matching index) and ignores the others. -/
theorem claim9_thm (df : Csv) (j : Nat) (_hd : df.headers.Nodup)
    (_hm : 2 ≤ (df.headers.filter isUrlHeader).length)
    (hj : df.headers.findIdx? isUrlHeader = some j) :
    get_urls_from_local_csv (some df) =
      df.rows.filterMap (fun row => (row[j]?).getD none) :=
  get_urls_pos df j hj

/-- Claim C9 witness: with columns `URL` and `Url` both matching, the value
of the leftmost (`URL`) column is returned and the other is ignored. -/
theorem claim9_witness :
    get_urls_from_local_csv (some ⟨["URL", "Url"], [[some "a", some "b"]]⟩) = ["a"] := by
  rw [claim9_thm ⟨["URL", "Url"], [[some "a", some "b"]]⟩ 0 (by decide) (by decide) (by decide)]
  rfl

/-! ## Claim C6 -/

/-- Claim C6: the first spreadsheet call always clears columns B and C from
row 2 down; with an empty table nothing else happens; with a non-empty table
the clear is followed by exactly the header-plus-data writes to columns B
and C and the bold formatting of the header row. -/
theorem claim6_thm (df : List StockRow) :
    (write_to_google_sheets df).head? = some (SheetOp.batchClear ["B2:B", "C2:C"]) ∧
    (df = [] → write_to_google_sheets df = [SheetOp.batchClear ["B2:B", "C2:C"]]) ∧
    (df ≠ [] → write_to_google_sheets df =
      [SheetOp.batchClear ["B2:B", "C2:C"],
       SheetOp.update ("B1:B" ++ toString (df.length + 1))
         (["Code"] :: df.map (fun r => [r.code])),
       SheetOp.update ("C1:C" ++ toString (df.length + 1))
         (["QTY"] :: df.map (fun r => [r.qty])),
       SheetOp.format "B1:C1" "bold"]) := by
  rcases df with _ | ⟨r, t⟩
  · exact ⟨rfl, fun _ => rfl, fun h => absurd rfl h⟩
  · refine ⟨rfl, fun h => by simp at h, fun _ => ?_⟩
    simp [write_to_google_sheets, List.map_map, Function.comp]

/-- Claim C6 witness: the empty table produces only the clear; a one-row
table produces the clear, the two column writes and the bold format. -/
theorem claim6_witness :
    write_to_google_sheets [] = [SheetOp.batchClear ["B2:B", "C2:C"]] ∧
    write_to_google_sheets [⟨"A", "1"⟩] =
      [SheetOp.batchClear ["B2:B", "C2:C"],
       SheetOp.update "B1:B2" [["Code"], ["A"]],
       SheetOp.update "C1:C2" [["QTY"], ["1"]],
       SheetOp.format "B1:C1" "bold"] := by
  refine ⟨(claim6_thm []).2.1 rfl, ?_⟩
  rw [(claim6_thm [⟨"A", "1"⟩]).2.2 (by decide)]
  rfl

/-! ## Claim C10 -/

/-- Claim C10: in file mode an empty final table still produces output — the
file contents are exactly the header line `Code,QTY` with zero data rows —
whereas in spreadsheet mode the same empty table performs only the clear and
skips the write. -/
theorem claim10_thm :
    mainFileOutput [] = "Code,QTY\n" ∧
    write_to_google_sheets (derive_manual_skus []) = [SheetOp.batchClear ["B2:B", "C2:C"]] :=
  ⟨rfl, rfl⟩

end StockScraper
